import Mathlib

/-!
Verification development for the jazz engine (groverburger/jazz).

Shallow embedding of the core subsystems the specification talks about:
the spatial hash (src/spatialhash.js, provided as src/unnamed/part_003),
AABB intersection helpers (src/utils.js), entity movement, collision and
timers (src/thing.js), the scene update pass (src/scene.js) and the
fixed-timestep scheduler (src/game.js).

JavaScript numbers are modelled as exact rationals (ℚ); `Math.floor`
becomes `Int.floor`, `Math.round` (half toward positive infinity)
becomes `jsRound`, the remainder operator `%` (sign of the dividend)
becomes `jsMod`, object identity becomes a natural-number id carried by
each entity.  All definitions are executable so concrete scenarios can
be evaluated by `decide` / `rfl`.
-/

namespace Jazz

/-! ## JavaScript number helpers -/

/-- JS `Math.round`: rounds half toward positive infinity
(`Math.round(0.5) = 1`, `Math.round(-0.5) = 0`). -/
def jsRound (q : ℚ) : ℤ := ⌊q + 1 / 2⌋

/-- `sign` from src/utils.js lines 46-48: `x && (x > 0 ? 1 : -1)` —
returns 0 for 0 (falsy), otherwise ±1. -/
def jsSign (x : ℚ) : ℚ := if x = 0 then 0 else if x > 0 then 1 else -1

/-- Truncation toward zero, as JS division-then-truncation used by `%`. -/
def ratTrunc (q : ℚ) : ℤ := if 0 ≤ q then ⌊q⌋ else ⌈q⌉

/-- JS remainder `a % b`: takes the sign of the dividend. -/
def jsMod (a b : ℚ) : ℚ := a - b * (ratTrunc (a / b) : ℚ)

/-- JS `array.splice(array.indexOf(x), 1)`: removes the first occurrence
of `x`; when `x` is absent `indexOf` is `-1` and `splice(-1, 1)` removes
the last element instead (and removes nothing from an empty array). -/
def jsSpliceOut (l : List ℕ) (x : ℕ) : List ℕ :=
  if x ∈ l then l.erase x else l.dropLast

/-! ## SpatialHash (src/unnamed/part_003)

The JS class keeps `hash` (cell key → array of objects), `objects`
(object → array of cell keys) and `hitboxes` (object → last added
rectangle).  Objects are identified by a natural-number id (object
identity in JS).  A cell key that JS would `delete` is represented by
the empty list: `query` treats a missing key as `[]` (`?? []`), and the
`!this.hash[key]` guard in `add` creates a fresh empty array whose
subsequent `push` yields the same list either way. -/

structure SpatialHash where
  size : ℚ
  hash : ℤ × ℤ → List ℕ
  objects : ℕ → Option (List (ℤ × ℤ))
  hitboxes : ℕ → Option (ℚ × ℚ × ℚ × ℚ)

/-- `new SpatialHash(size)`: empty maps. -/
def emptySpatialHash (size : ℚ) : SpatialHash :=
  { size := size
    hash := fun _ => []
    objects := fun _ => none
    hitboxes := fun _ => none }

/-- `cellCoord(x, y)`: `[Math.floor(x / size), Math.floor(y / size)]`. -/
def cellCoord (size x y : ℚ) : ℤ × ℤ := (⌊x / size⌋, ⌊y / size⌋)

/-- The list of integers from `a` to `b` inclusive (empty when `b < a`),
the index set of a JS `for (let i = a; i <= b; i++)` loop. -/
def intRange (a b : ℤ) : List ℤ :=
  (List.range (b + 1 - a).toNat).map fun i : ℕ => a + (i : ℤ)

/-- The cell keys visited by the double loop in `add` / `query`:
from `cellCoord(x, y)` to `cellCoord(x + w, y + h)` inclusive, x-major. -/
def coveredCells (size x y w h : ℚ) : List (ℤ × ℤ) :=
  let s := cellCoord size x y
  let e := cellCoord size (x + w) (y + h)
  (intRange s.1 e.1).flatMap fun cx => (intRange s.2 e.2).map fun cy => (cx, cy)

/-- The body of `add`'s double loop, one iteration per covered cell:
push the object into the cell's array and the cell key into the
object's array (creating either array when absent). -/
def addCellsFold (id : ℕ) (cells : List (ℤ × ℤ)) (sh : SpatialHash) : SpatialHash :=
  cells.foldl
    (fun acc c =>
      { acc with
        hash := fun c' => if c' = c then acc.hash c' ++ [id] else acc.hash c'
        objects := fun o =>
          if o = id then some (((acc.objects id).getD []) ++ [c]) else acc.objects o })
    sh

/-- `add(object, x, y, width, height)` from src/unnamed/part_003 lines
37-55: record the hitbox, then insert the object into every covered cell. -/
def SpatialHash.add (sh : SpatialHash) (id : ℕ) (x y w h : ℚ) : SpatialHash :=
  addCellsFold id (coveredCells sh.size x y w h)
    { sh with hitboxes := fun o => if o = id then some (x, y, w, h) else sh.hitboxes o }

/-- The body of `remove`'s loop over the object's recorded cells:
splice the object out of each cell's array (emptied arrays are deleted,
which this model represents as the empty list). -/
def removeCellsFold (id : ℕ) (cells : List (ℤ × ℤ)) (sh : SpatialHash) : SpatialHash :=
  cells.foldl
    (fun acc c =>
      { acc with hash := fun c' => if c' = c then jsSpliceOut (acc.hash c) id else acc.hash c' })
    sh

/-- `remove(object)` from src/unnamed/part_003 lines 58-73.  When the
object is untracked it logs a `console.error` and returns with the maps
untouched; the Bool result records whether that error was logged. -/
def SpatialHash.remove (sh : SpatialHash) (id : ℕ) : SpatialHash × Bool :=
  match sh.objects id with
  | none => (sh, true)
  | some cells =>
    let sh' := removeCellsFold id cells sh
    ({ sh' with
        objects := fun o => if o = id then none else sh'.objects o
        hitboxes := fun o => if o = id then none else sh'.hitboxes o }, false)

/-- `getHitbox(object)`. -/
def SpatialHash.getHitbox (sh : SpatialHash) (id : ℕ) : Option (ℚ × ℚ × ℚ × ℚ) :=
  sh.hitboxes id

/-- `update(object, x, y, width, height)`: `remove` then `add`. -/
def SpatialHash.update (sh : SpatialHash) (id : ℕ) (x y w h : ℚ) : SpatialHash :=
  (sh.remove id).1.add id x y w h

/-- `query(x, y, width, height)` from src/unnamed/part_003 lines 90-100:
concatenate the arrays of every covered cell (missing cells are `?? []`). -/
def SpatialHash.query (sh : SpatialHash) (x y w h : ℚ) : List ℕ :=
  (coveredCells sh.size x y w h).flatMap sh.hash

/-- A recorded `add` call, used to describe hashes built by a sequence
of insertions. -/
structure AddOp where
  id : ℕ
  x : ℚ
  y : ℚ
  w : ℚ
  h : ℚ
deriving DecidableEq

/-- Apply a sequence of `add` calls in order. -/
def applyAdds (sh : SpatialHash) (adds : List AddOp) : SpatialHash :=
  adds.foldl (fun s a => s.add a.id a.x a.y a.w a.h) sh

/-! ## AABBs (src/utils.js)

Entity bounding boxes here are the 2D `[minX, minY, maxX, maxY]` form
(`Thing.aabb` defaults to a 4-element array); for such boxes
`checkAabbIntersection` from src/utils.js lines 345-358 always takes the
2D branch, so only `checkAabbIntersection2D` is embedded. -/

structure Aabb where
  minX : ℚ
  minY : ℚ
  maxX : ℚ
  maxY : ℚ
deriving DecidableEq

/-- `checkAabbIntersection2D` from src/utils.js lines 360-369: closed
(boundary-inclusive) intersection of the two boxes offset by the two
positions. -/
def checkAabbIntersection2D (aabb1 aabb2 : Aabb) (p1 p2 : ℚ × ℚ) : Bool :=
  decide (aabb1.minX + p1.1 ≤ aabb2.maxX + p2.1) &&
  decide (aabb1.minY + p1.2 ≤ aabb2.maxY + p2.2) &&
  decide (aabb1.maxX + p1.1 ≥ aabb2.minX + p2.1) &&
  decide (aabb1.maxY + p1.2 ≥ aabb2.minY + p2.2)

/-- `aabbToXywh` from src/utils.js lines 398-420, 2D branch:
`[aabb[0] + p[0], aabb[1] + p[1], aabb[2] - aabb[0], aabb[3] - aabb[1]]`. -/
def aabbToXywh (a : Aabb) (p : ℚ × ℚ) : ℚ × ℚ × ℚ × ℚ :=
  (a.minX + p.1, a.minY + p.2, a.maxX - a.minX, a.maxY - a.minY)

/-! ## Thing (src/thing.js)

JS object identity (`thing !== this`) is modelled by the `id` field.
Fields not consulted by the movement/collision/scene code under claim
(sprite, rotation, scale, animation state) are omitted. -/

structure ContactDirections where
  left : Bool
  right : Bool
  up : Bool
  down : Bool
deriving DecidableEq

structure Thing where
  id : ℕ
  position : ℚ × ℚ
  velocity : ℚ × ℚ
  aabb : Aabb
  contactDirections : ContactDirections
  isOverlapEnabled : Bool
  isSolid : Bool
  isDead : Bool
  isPaused : Bool
  depth : ℚ
deriving DecidableEq

/-- `isOverlapping(thing, x, y, z)` from src/thing.js lines 205-218:
the candidate is non-null (inapplicable here), is a different object,
has overlap enabled, is alive, and its box intersects ours at the probe
position.  `x`, `y` default to `this.position` at call sites. -/
def Thing.isOverlapping (self other : Thing) (x y : ℚ) : Bool :=
  decide (other.id ≠ self.id) && other.isOverlapEnabled && !other.isDead &&
  checkAabbIntersection2D self.aabb other.aabb (x, y) other.position

/-- `getAllOverlaps(x, y, z)` from src/thing.js lines 231-240.  `near`
is the broad-phase candidate list produced by `game.getThingsNearXywh`
(the scene's spatial-hash query around the probe box); the filter is the
exact narrow phase. -/
def Thing.getAllOverlaps (self : Thing) (near : List Thing) (x y : ℚ) : List Thing :=
  near.filter fun t => self.isOverlapping t x y

/-- `checkCollision(x, y, z)` from src/thing.js lines 242-249: true iff
some overlapping candidate is solid. -/
def Thing.checkCollision (self : Thing) (near : List Thing) (x y : ℚ) : Bool :=
  (self.getAllOverlaps near x y).any (·.isSolid)

/-- One execution of the X-axis `while (Math.round(dx * 1000))` loop of
`move` (src/thing.js lines 174-187).  The fuel argument only bounds the
number of iterations; `Thing.move` passes enough fuel that, for a
positive `stepSize`, the guard or the collision break is always reached
before the fuel runs out (each committed step shrinks `|dx|` by
`min |dx| stepSize`). -/
def moveLoopX (near : List Thing) (stepSize : ℚ) : ℕ → Thing → ℚ → Thing
  | 0, t, _ => t
  | fuel + 1, t, dx =>
    if jsRound (dx * 1000) = 0 then t
    else
      let step := jsSign dx * min |dx| stepSize
      if t.checkCollision near (t.position.1 + step) t.position.2 then
        let cd := t.contactDirections
        let cd := if jsSign dx > 0 then { cd with right := true } else cd
        let cd := if jsSign dx < 0 then { cd with left := true } else cd
        { t with
          velocity := (0, t.velocity.2)
          position := ((jsRound t.position.1 : ℚ) - jsSign dx * (1 / 10000), t.position.2)
          contactDirections := cd }
      else
        moveLoopX near stepSize fuel
          { t with position := (t.position.1 + step, t.position.2) } (dx - step)

/-- The Y-axis loop of `move` (src/thing.js lines 189-202), run after
the X axis is fully resolved; positive `dy` is downward. -/
def moveLoopY (near : List Thing) (stepSize : ℚ) : ℕ → Thing → ℚ → Thing
  | 0, t, _ => t
  | fuel + 1, t, dy =>
    if jsRound (dy * 1000) = 0 then t
    else
      let step := jsSign dy * min |dy| stepSize
      if t.checkCollision near t.position.1 (t.position.2 + step) then
        let cd := t.contactDirections
        let cd := if jsSign dy > 0 then { cd with down := true } else cd
        let cd := if jsSign dy < 0 then { cd with up := true } else cd
        { t with
          velocity := (t.velocity.1, 0)
          position := (t.position.1, (jsRound t.position.2 : ℚ) - jsSign dy * (1 / 10000))
          contactDirections := cd }
      else
        moveLoopY near stepSize fuel
          { t with position := (t.position.1, t.position.2 + step) } (dy - step)

/-- `move(dx, dy, stepSize)` from src/thing.js lines 166-203: clear all
four contact flags, then sweep the X axis, then the Y axis against the
broad-phase candidates `near`.  The source defaults are
`dx = velocity[0]`, `dy = velocity[1]`, `stepSize = 1`. -/
def Thing.move (t : Thing) (near : List Thing) (dx dy stepSize : ℚ) : Thing :=
  let t0 := { t with contactDirections := ⟨false, false, false, false⟩ }
  let t1 := moveLoopX near stepSize ((⌈|dx| / stepSize⌉).natAbs + 2) t0 dx
  moveLoopY near stepSize ((⌈|dy| / stepSize⌉).natAbs + 2) t1 dy

/-! ## Timers (src/thing.js lines 58-106)

The per-thing `#timers` registry maps a name (modelled as ℕ) to
`{ time, start, action }`.  Completion actions are arbitrary application
closures run after the expired timer is deleted; they are outside the
model (they can only run once a timer's decremented `time` reaches 0,
which never happens in the claims below). -/

structure Timer where
  time : ℚ
  start : ℚ
deriving DecidableEq

/-- The registry value for a name, `this.#timers[name]`. -/
def lookupTimer (ts : List (ℕ × Timer)) (n : ℕ) : Option Timer :=
  (ts.find? fun p => p.1 = n).map (·.2)

/-- `setTimer(time, action, name)`: `this.#timers[name] = { time, start: time }`
(JS property assignment overwrites in place or appends a new key). -/
def setTimer (ts : List (ℕ × Timer)) (n : ℕ) (time : ℚ) : List (ℕ × Timer) :=
  if (lookupTimer ts n).isSome then
    ts.map fun p => if p.1 = n then (n, ⟨time, time⟩) else p
  else
    ts ++ [(n, ⟨time, time⟩)]

/-- `isTimerActive(name)`: `name in this.#timers`. -/
def isTimerActive (ts : List (ℕ × Timer)) (n : ℕ) : Bool :=
  (lookupTimer ts n).isSome

/-- `getTimerFrames(name)` from src/thing.js lines 76-79:
`start - time` (0 for a missing timer). -/
def getTimerFrames (ts : List (ℕ × Timer)) (n : ℕ) : ℚ :=
  match lookupTimer ts n with
  | none => 0
  | some tm => tm.start - tm.time

/-- `updateTimers()` from src/thing.js lines 94-106: decrement each
timer once; an entry whose decremented `time` is ≤ 0 is deleted (and its
action would then run). -/
def updateTimers (ts : List (ℕ × Timer)) : List (ℕ × Timer) :=
  ((ts.map fun p => (p.1, Timer.mk (p.2.time - 1) p.2.start)).filter
    fun p => decide (0 < p.2.time))

/-! ## Scene (src/scene.js)

The scene owns the live entity list, the integer-keyed depth layers
(ids per bucket; a bucket JS would `delete` is the empty list), the
depth memory (`WeakMap` from thing to its last rounded depth) and the
spatial hash.  The camera, screenshake and named-thing registries play
no part in the claims and are omitted.  An entity's `update()` is a
virtual method on the JS side; it is modelled as a parameter
`upd : Thing → Thing` applied to the updating thing. -/

structure Scene where
  things : List Thing
  layers : ℤ → List ℕ
  depthMemory : ℕ → Option ℤ
  spatialHash : SpatialHash

/-- A freshly constructed Scene: no things, no layers, an empty spatial
hash with the default cell size 64. -/
def emptyScene : Scene :=
  { things := []
    layers := fun _ => []
    depthMemory := fun _ => none
    spatialHash := emptySpatialHash 64 }

/-- `updateDepth(thing)` from src/scene.js lines 214-228: bucket key is
`Math.round(thing.depth)`; an unchanged key returns early, otherwise the
thing is spliced out of its previous bucket (when the memory held one —
for a fresh thing the JS `NaN` key makes that splice a no-op) and pushed
onto the new bucket, and the memory records the new key.  The derived
sorted `layerOrder` list only drives drawing and is not modelled. -/
def Scene.updateDepth (s : Scene) (t : Thing) : Scene :=
  let depth : ℤ := jsRound t.depth
  let prev := s.depthMemory t.id
  if prev = some depth then s
  else
    let layers1 : ℤ → List ℕ :=
      match prev with
      | some p => fun k => if k = p then jsSpliceOut (s.layers p) t.id else s.layers k
      | none => s.layers
    { s with
      depthMemory := fun n => if n = t.id then some depth else s.depthMemory n
      layers := fun k => if k = depth then layers1 depth ++ [t.id] else layers1 k }

/-- `addThing(thing)` from src/scene.js lines 203-211: push onto the
entity list, add to the spatial hash under the thing's world xywh, and
assign a depth bucket.  The `instanceof Thing` guard (fatal on a
non-Thing) is enforced by typing here. -/
def Scene.addThing (s : Scene) (t : Thing) : Scene :=
  let xywh := aabbToXywh t.aabb t.position
  Scene.updateDepth
    { s with
      things := s.things ++ [t]
      spatialHash := s.spatialHash.add t.id xywh.1 xywh.2.1 xywh.2.2.1 xywh.2.2.2 }
    t

/-- The in-place indexed loop of `Scene.update` (src/scene.js lines
70-103).  A thing that is alive and unpaused runs its update; a thing
found dead afterwards is spliced out of its recorded depth bucket
(`if (layer)` — an absent bucket is the empty list here, from which the
splice removes nothing), removed from the spatial hash, erased from the
depth memory, and spliced from the entity list without advancing the
index; a live thing re-derives its depth bucket when the remembered
rounded depth differs from its raw depth and refreshes its spatial-hash
entry when its world min-corner moved.  `onDeath` is application code
and not modelled. -/
def sceneUpdateLoop (upd : Thing → Thing) : List Thing → Scene → List Thing × Scene
  | [], s => ([], s)
  | t :: rest, s =>
    let t1 := if !t.isDead && !t.isPaused then upd t else t
    if t1.isDead then
      let layerKey : ℤ := (s.depthMemory t1.id).getD 0
      let s :=
        { s with
          layers := fun k =>
            if k = layerKey then jsSpliceOut (s.layers layerKey) t1.id else s.layers k }
      let s := { s with spatialHash := (s.spatialHash.remove t1.id).1 }
      let s := { s with depthMemory := fun n => if n = t1.id then none else s.depthMemory n }
      sceneUpdateLoop upd rest s
    else
      let s := if (s.depthMemory t1.id).map (fun z => (z : ℚ)) ≠ some t1.depth
               then s.updateDepth t1 else s
      let s :=
        match s.spatialHash.getHitbox t1.id with
        | some hb =>
          if hb.1 ≠ t1.position.1 + t1.aabb.minX ∨ hb.2.1 ≠ t1.position.2 + t1.aabb.minY then
            let xywh := aabbToXywh t1.aabb t1.position
            { s with spatialHash := s.spatialHash.update t1.id xywh.1 xywh.2.1 xywh.2.2.1 xywh.2.2.2 }
          else s
        | none => s
      let r := sceneUpdateLoop upd rest s
      (t1 :: r.1, r.2)

/-- `Scene.update()` (src/scene.js lines 68-125): the entity pass.  The
subsequent named-thing pruning and screenshake advance act on registries
outside this model. -/
def Scene.update (upd : Thing → Thing) (s : Scene) : Scene :=
  let r := sceneUpdateLoop upd s.things s
  { r.2 with things := r.1 }

/-! ## Scheduler (src/game.js)

The module-level scheduler state, restricted to what the `frame`
callback (src/game.js lines 189-255) reads and writes.  `hasFocus`
stands for `document.hasFocus()`, constant during one callback;
`resizePending` for a canvas-size mismatch consumed by
`handleCanvasResize`; `swapPending` for a pending `nextScene` consumed
by `handleSceneChange` — all three reset the accumulator to its 0.99
bias.  Key maps, mouse contents, sounds, `gameTime` and `frameCount`
are input/output registries that do not feed back into the scheduling
logic and are not modelled. -/

structure SchedState where
  previousFrameTime : Option ℚ
  accumulator : ℚ
  updateSpeed : ℚ
  impactFrameCount : ℚ
  isFocused : Bool
  hasFocus : Bool
  isFramerateUncapped : Bool
  resizePending : Bool
  swapPending : Bool
deriving DecidableEq

/-- `updateHandler()` from src/game.js lines 257-286: canvas-resize
check, focus-transition check (`gainFocus` rebiases the accumulator to
0.99), pending scene swap (also rebiases), then an early falsy return
when unfocused; a focused call updates the scene and sound subsystem
and returns `true`. -/
def updateHandler (s : SchedState) : SchedState × Bool :=
  let s := if s.resizePending then { s with accumulator := 99/100, resizePending := false } else s
  let s :=
    if s.hasFocus && !s.isFocused then { s with accumulator := 99/100, isFocused := true }
    else { s with isFocused := s.hasFocus }
  let s := if s.swapPending then { s with accumulator := 99/100, swapPending := false } else s
  (s, s.isFocused)

/-- One iteration of the drain loop's body (src/game.js lines 224-227):
`rerender = updateHandler() || rerender` and `accumulator -= 1`
(`updateHandler` is pure here, so reading its two results twice equals
the source's single call). -/
def drainStep (s : SchedState) (r : Bool) : SchedState × Bool :=
  let p := updateHandler s
  ({ p.1 with accumulator := p.1.accumulator - 1 }, p.2 || r)

/-- The `while (accumulator >= 1 && times < 5)` drain loop of `frame`
(src/game.js lines 221-228): run `updateHandler`, OR its result into
`rerender`, subtract one from the accumulator, count the step.  The
`times < 5` bound is the fuel. -/
def drainLoop : ℕ → SchedState → Bool → ℕ → SchedState × Bool × ℕ
  | 0, s, r, times => (s, r, times)
  | fuel + 1, s, r, times =>
    if s.accumulator ≥ 1 then
      drainLoop fuel (drainStep s r).1 (drainStep s r).2 (times + 1)
    else (s, r, times)

structure FrameResult where
  state : SchedState
  steps : ℕ
  rerender : Bool
  draws : ℕ
  rawDeltaReset : Bool
deriving DecidableEq

/-- The delta computation of `frame` (src/game.js lines 191-202): wall
seconds × 60 × updateSpeed; zero on the very first callback.  The
near-1 "fuzzy delta" snap in the source is commented out. -/
def frameDelta (s : SchedState) (frameTime : ℚ) : ℚ :=
  match s.previousFrameTime with
  | none => 0
  | some prev => (frameTime - prev) / 1000 * 60 * s.updateSpeed

/-- The state entering the drain loop (src/game.js lines 206-217):
record the callback time, then feed the delta to an active impact-frame
countdown, or else to the accumulator. -/
def preDrainState (s : SchedState) (frameTime : ℚ) : SchedState :=
  let delta := frameDelta s frameTime
  let s1 : SchedState := { s with previousFrameTime := some frameTime }
  if s1.impactFrameCount > 0 then { s1 with impactFrameCount := s1.impactFrameCount - delta }
  else { s1 with accumulator := s1.accumulator + delta }

/-- One display-frame callback, `frame(frameTime)` from src/game.js
lines 189-255.  The drain loop runs at most 5 steps; the accumulator is
then reduced `%= 1` (JS remainder, sign of the dividend).  `draws`
counts `draw()` calls: one when (`rerender` or uncapped) and the
document has focus; the raw mouse delta is reset whenever that outer
render branch is taken. -/
def frame (s : SchedState) (frameTime : ℚ) : FrameResult :=
  let d := drainLoop 5 (preDrainState s frameTime) false 0
  let s := { d.1 with accumulator := jsMod d.1.accumulator 1 }
  let willRender := d.2.1 || s.isFramerateUncapped
  { state := s
    steps := d.2.2
    rerender := d.2.1
    draws := if willRender && s.hasFocus then 1 else 0
    rawDeltaReset := willRender }

/-! ## Concrete scenario data -/

/-- The default contact record: all four flags clear. -/
def noContacts : ContactDirections := ⟨false, false, false, false⟩

/-- A mover for the blocked +X sweep: grid-aligned position `(px, py)`
with `px` an integer, default-like flags, the spec scenario's
`[-8, -8, 8, 8]` box, arbitrary velocity and prior contact flags. -/
def c1Mover (px : ℤ) (py vx vy : ℚ) (cd : ContactDirections) : Thing :=
  { id := 0
    position := ((px : ℚ), py)
    velocity := (vx, vy)
    aabb := ⟨-8, -8, 8, 8⟩
    contactDirections := cd
    isOverlapEnabled := true
    isSolid := false
    isDead := false
    isPaused := false
    depth := 0 }

/-- The mover as it stands at the top of `move`, after the call has
cleared the four contact flags. -/
def c1MoverCleared (px : ℤ) (py vx vy : ℚ) : Thing :=
  { id := 0
    position := ((px : ℚ), py)
    velocity := (vx, vy)
    aabb := ⟨-8, -8, 8, 8⟩
    contactDirections := noContacts
    isOverlapEnabled := true
    isSolid := false
    isDead := false
    isPaused := false
    depth := 0 }

/-- A solid blocker immediately adjacent on the mover's +X side: its
left edge `px + 16 - 8` coincides with the mover's right edge `px + 8`. -/
def c1Blocker (px : ℤ) (py : ℚ) : Thing :=
  { id := 1
    position := ((px : ℚ) + 16, py)
    velocity := (0, 0)
    aabb := ⟨-8, -8, 8, 8⟩
    contactDirections := noContacts
    isOverlapEnabled := true
    isSolid := true
    isDead := false
    isPaused := false
    depth := 0 }

/-- The same blocked +X sweep at the fractional position `x = 1/2`
(blocker adjacent at `x = 33/2`, edges touching at `17/2`). -/
def c1CexMover : Thing :=
  { id := 0
    position := (1 / 2, 0)
    velocity := (5, 0)
    aabb := ⟨-8, -8, 8, 8⟩
    contactDirections := noContacts
    isOverlapEnabled := true
    isSolid := false
    isDead := false
    isPaused := false
    depth := 0 }

def c1CexBlocker : Thing :=
  { id := 1
    position := (33 / 2, 0)
    velocity := (0, 0)
    aabb := ⟨-8, -8, 8, 8⟩
    contactDirections := noContacts
    isOverlapEnabled := true
    isSolid := true
    isDead := false
    isPaused := false
    depth := 0 }

/-- An entity resting against a wall on its right: its contact flags
still record the previous `move`'s collision. -/
def c5Thing : Thing :=
  { id := 0
    position := (0, 0)
    velocity := (0, 0)
    aabb := ⟨-8, -8, 8, 8⟩
    contactDirections := ⟨false, true, false, false⟩
    isOverlapEnabled := true
    isSolid := false
    isDead := false
    isPaused := false
    depth := 0 }

/-- A live, unpaused entity with arbitrary placement data, used for the
removal-timing scenario. -/
def c4Thing (n : ℕ) (pos vel : ℚ × ℚ) (a : Aabb) (oe sol : Bool) (d : ℚ) : Thing :=
  { id := n
    position := pos
    velocity := vel
    aabb := a
    contactDirections := noContacts
    isOverlapEnabled := oe
    isSolid := sol
    isDead := false
    isPaused := false
    depth := d }

/-- An entity update that kills the entity (`this.isDead = true`). -/
def killSelf (t : Thing) : Thing := { t with isDead := true }

/-- A concrete instance of the removal-timing scenario: one live thing
at depth 2 registered in a fresh scene. -/
def c4CexScene : Scene :=
  emptyScene.addThing (c4Thing 3 (5, 7) (0, 0) ⟨-8, -8, 8, 8⟩ true false 2)

/-- Scheduler state: focused and steady (no transition, nothing
pending), accumulator at its 0.99 bias, previous callback at time 0. -/
def steadySched : SchedState :=
  { previousFrameTime := some 0
    accumulator := 99 / 100
    updateSpeed := 1
    impactFrameCount := 0
    isFocused := true
    hasFocus := true
    isFramerateUncapped := false
    resizePending := false
    swapPending := false }

/-- Scheduler state at a focus regain: the window was unfocused at the
previous step boundary and has focus now. -/
def refocusSched : SchedState :=
  { steadySched with isFocused := false }

/-- Scheduler state while the window is unfocused (capped framerate). -/
def unfocusedSched : SchedState :=
  { steadySched with isFocused := false, hasFocus := false }

/-! ## Helper lemmas -/

/-- The registry after a fresh single timer and `k` ticks, while the
timer is still running: `time` has dropped from `d` to `d - k`. -/
theorem timersAfterTicks (d k : ℕ) (h : k < d) :
    (updateTimers)^[k] (setTimer [] 0 (d : ℚ)) = [(0, ⟨(d : ℚ) - (k : ℚ), (d : ℚ)⟩)] := by
  induction k with
  | zero => simp [setTimer, lookupTimer]
  | succ k ih =>
    have hk : k < d := Nat.lt_of_succ_lt h
    have hpos : (0 : ℚ) < (d : ℚ) - (k : ℚ) - 1 := by
      have hcast : ((k : ℚ) + 1) < (d : ℚ) := by
        exact_mod_cast h
      linarith
    rw [Function.iterate_succ_apply', ih hk]
    simp only [updateTimers, List.map_cons, List.map_nil, List.filter,
      decide_eq_true hpos]
    push_cast
    ring_nf

/-- Integers in a `for (let i = a; i <= b; i++)` loop. -/
theorem mem_intRange {a b n : ℤ} : n ∈ intRange a b ↔ a ≤ n ∧ n ≤ b := by
  unfold intRange
  simp only [List.mem_map, List.mem_range]
  constructor
  · rintro ⟨i, hi, rfl⟩
    omega
  · rintro ⟨h1, h2⟩
    exact ⟨(n - a).toNat, by omega, by omega⟩

theorem intRange_nodup (a b : ℤ) : (intRange a b).Nodup :=
  List.Nodup.map (fun i j h => by omega) (List.nodup_range _)

/-- Cell membership in the covered double loop. -/
theorem mem_coveredCells {size x y w h : ℚ} {c : ℤ × ℤ} :
    c ∈ coveredCells size x y w h ↔
      (⌊x / size⌋ ≤ c.1 ∧ c.1 ≤ ⌊(x + w) / size⌋ ∧
        ⌊y / size⌋ ≤ c.2 ∧ c.2 ≤ ⌊(y + h) / size⌋) := by
  obtain ⟨c1, c2⟩ := c
  unfold coveredCells cellCoord
  simp only [List.mem_flatMap, List.mem_map, Prod.mk.injEq]
  constructor
  · rintro ⟨cx, hcx, cy, hcy, rfl, rfl⟩
    exact ⟨(mem_intRange.mp hcx).1, (mem_intRange.mp hcx).2,
      (mem_intRange.mp hcy).1, (mem_intRange.mp hcy).2⟩
  · rintro ⟨h1, h2, h3, h4⟩
    exact ⟨c1, mem_intRange.mpr ⟨h1, h2⟩, c2, mem_intRange.mpr ⟨h3, h4⟩, rfl, rfl⟩

theorem coveredCells_nodup (size x y w h : ℚ) : (coveredCells size x y w h).Nodup := by
  show (List.product _ _).Nodup
  exact List.Nodup.product (intRange_nodup _ _) (intRange_nodup _ _)

/-- A point of a rectangle lies in one of its covered cells. -/
theorem coveredCells_of_point {size x y w h px py : ℚ} (hsize : 0 < size)
    (hx1 : x ≤ px) (hx2 : px ≤ x + w) (hy1 : y ≤ py) (hy2 : py ≤ y + h) :
    (⌊px / size⌋, ⌊py / size⌋) ∈ coveredCells size x y w h := by
  rw [mem_coveredCells]
  refine ⟨?_, ?_, ?_, ?_⟩ <;>
    exact Int.floor_le_floor (by rw [div_le_div_iff_of_pos_right hsize] <;> linarith)

/-- `addCellsFold` leaves the cell size untouched. -/
theorem addCellsFold_size (id : ℕ) (cells : List (ℤ × ℤ)) (sh : SpatialHash) :
    (addCellsFold id cells sh).size = sh.size := by
  induction cells generalizing sh with
  | nil => rfl
  | cons c0 cs ih => exact ih _

/-- `addCellsFold` leaves the hitboxes untouched. -/
theorem addCellsFold_hitboxes (id : ℕ) (cells : List (ℤ × ℤ)) (sh : SpatialHash) :
    (addCellsFold id cells sh).hitboxes = sh.hitboxes := by
  induction cells generalizing sh with
  | nil => rfl
  | cons c0 cs ih => exact ih _

/-- After the insertion loop, a cell's array has gained one copy of the
object per visit of that cell. -/
theorem addCellsFold_hash (id : ℕ) (cells : List (ℤ × ℤ)) (sh : SpatialHash) (c : ℤ × ℤ) :
    (addCellsFold id cells sh).hash c = sh.hash c ++ List.replicate (cells.count c) id := by
  induction cells generalizing sh with
  | nil => simp [addCellsFold]
  | cons c0 cs ih =>
    show (addCellsFold id cs _).hash c = _
    rw [ih]
    by_cases hc : c = c0
    · subst hc
      simp [List.count_cons_self, List.append_assoc, List.replicate_succ]
    · have hne : (c0 == c) = false := by simpa using fun h => hc h.symm
      simp [List.count_cons, hne, hc]

/-- After the insertion loop over at least one cell, the object's cell
list has gained the visited cells, in order.  (A loop over zero cells —
a degenerate rectangle — never creates the object's entry; only the
hitbox record is written.) -/
theorem addCellsFold_objects_self (id : ℕ) (cells : List (ℤ × ℤ)) (sh : SpatialHash)
    (hne : cells ≠ []) :
    (addCellsFold id cells sh).objects id =
      some (((sh.objects id).getD []) ++ cells) := by
  induction cells generalizing sh with
  | nil => exact absurd rfl hne
  | cons c0 cs ih =>
    show (addCellsFold id cs _).objects id = _
    by_cases hcs : cs = []
    · subst hcs
      simp [addCellsFold]
    · rw [ih _ hcs]
      simp

theorem addCellsFold_objects_ne (id o : ℕ) (cells : List (ℤ × ℤ)) (sh : SpatialHash)
    (h : o ≠ id) : (addCellsFold id cells sh).objects o = sh.objects o := by
  induction cells generalizing sh with
  | nil => rfl
  | cons c0 cs ih =>
    show (addCellsFold id cs _).objects o = _
    rw [ih]
    simp [h]

theorem add_size (sh : SpatialHash) (id : ℕ) (x y w h : ℚ) :
    (sh.add id x y w h).size = sh.size :=
  addCellsFold_size _ _ _

theorem add_hash (sh : SpatialHash) (id : ℕ) (x y w h : ℚ) (c : ℤ × ℤ) :
    (sh.add id x y w h).hash c =
      sh.hash c ++ List.replicate ((coveredCells sh.size x y w h).count c) id :=
  addCellsFold_hash _ _ _ _

theorem add_objects_self (sh : SpatialHash) (id : ℕ) (x y w h : ℚ)
    (hne : coveredCells sh.size x y w h ≠ []) :
    (sh.add id x y w h).objects id =
      some (((sh.objects id).getD []) ++ coveredCells sh.size x y w h) :=
  addCellsFold_objects_self _ _ _ hne

theorem add_objects_ne (sh : SpatialHash) (id o : ℕ) (x y w h : ℚ) (hne : o ≠ id) :
    (sh.add id x y w h).objects o = sh.objects o :=
  addCellsFold_objects_ne _ _ _ _ hne

theorem add_hitboxes_self (sh : SpatialHash) (id : ℕ) (x y w h : ℚ) :
    (sh.add id x y w h).hitboxes id = some (x, y, w, h) := by
  unfold SpatialHash.add
  rw [addCellsFold_hitboxes]
  simp

/-- The whole-fold counting lemma for a sequence of `add` calls: the
number of copies of `id` in cell `c`'s array grows by the cell coverage
count of every recorded add carrying that id. -/
theorem applyAdds_hash_count (l : List AddOp) (sh : SpatialHash) (id : ℕ) (c : ℤ × ℤ) :
    ((applyAdds sh l).hash c).count id =
      (sh.hash c).count id +
        ((l.filter (fun a => a.id = id)).map
          (fun a => (coveredCells sh.size a.x a.y a.w a.h).count c)).sum := by
  induction l generalizing sh with
  | nil => simp [applyAdds]
  | cons a l' ih =>
    show ((applyAdds (sh.add a.id a.x a.y a.w a.h) l').hash c).count id = _
    rw [ih, add_hash, List.count_append, add_size, List.filter_cons]
    by_cases hid : a.id = id
    · subst hid
      rw [if_pos (by simp), List.map_cons, List.sum_cons,
        List.count_replicate_self]
      omega
    · have hrep : (List.replicate ((coveredCells sh.size a.x a.y a.w a.h).count c)
          a.id).count id = 0 := by
        rw [List.count_replicate]
        simp only [ite_eq_right_iff]
        intro heq
        exact absurd (by simpa using heq : a.id = id) hid
      rw [hrep, if_neg (by simp [hid])]
      omega

theorem applyAdds_size (l : List AddOp) (sh : SpatialHash) :
    (applyAdds sh l).size = sh.size := by
  induction l generalizing sh with
  | nil => rfl
  | cons a l' ih =>
    show (applyAdds (sh.add a.id a.x a.y a.w a.h) l').size = _
    rw [ih, add_size]

/-- Membership of a cell's array in terms of occurrence counts. -/
theorem mem_query_iff (sh : SpatialHash) (id : ℕ) (x y w h : ℚ) :
    id ∈ sh.query x y w h ↔
      ∃ c ∈ coveredCells sh.size x y w h, id ∈ sh.hash c := by
  unfold SpatialHash.query
  simp [List.mem_flatMap]

/-- Occurrence counting across the query concatenation. -/
theorem query_count (sh : SpatialHash) (id : ℕ) (x y w h : ℚ) :
    (sh.query x y w h).count id =
      ((coveredCells sh.size x y w h).map (fun c => (sh.hash c).count id)).sum := by
  unfold SpatialHash.query
  generalize coveredCells sh.size x y w h = cells
  induction cells with
  | nil => simp
  | cons c0 cs ih => simp [List.count_append, ih]

theorem applyAdds_append (sh : SpatialHash) (l1 l2 : List AddOp) :
    applyAdds sh (l1 ++ l2) = applyAdds (applyAdds sh l1) l2 :=
  List.foldl_append _ _ _ _

/-- A rectangle with non-negative extents covers at least one cell. -/
theorem coveredCells_ne_nil {size x y w h : ℚ} (hsize : 0 < size) (hw : 0 ≤ w)
    (hh : 0 ≤ h) : coveredCells size x y w h ≠ [] := by
  intro hnil
  have hm : (⌊x / size⌋, ⌊y / size⌋) ∈ coveredCells size x y w h :=
    coveredCells_of_point hsize le_rfl (by linarith) le_rfl (by linarith)
  rw [hnil] at hm
  cases hm

theorem removeCellsFold_size (id : ℕ) (cells : List (ℤ × ℤ)) (sh : SpatialHash) :
    (removeCellsFold id cells sh).size = sh.size := by
  induction cells generalizing sh with
  | nil => rfl
  | cons c0 cs ih => exact ih _

theorem removeCellsFold_objects (id : ℕ) (cells : List (ℤ × ℤ)) (sh : SpatialHash) :
    (removeCellsFold id cells sh).objects = sh.objects := by
  induction cells generalizing sh with
  | nil => rfl
  | cons c0 cs ih => exact ih _

theorem removeCellsFold_hitboxes (id : ℕ) (cells : List (ℤ × ℤ)) (sh : SpatialHash) :
    (removeCellsFold id cells sh).hitboxes = sh.hitboxes := by
  induction cells generalizing sh with
  | nil => rfl
  | cons c0 cs ih => exact ih _

/-- Splicing one copy of the object out of each visited cell clears a
hash whose every cell holds exactly one copy per visit. -/
theorem removeCellsFold_hash_clear (id : ℕ) (cells : List (ℤ × ℤ)) (sh : SpatialHash)
    (hinv : ∀ c, sh.hash c = List.replicate (cells.count c) id) :
    ∀ c, (removeCellsFold id cells sh).hash c = [] := by
  induction cells generalizing sh with
  | nil =>
    intro c
    simpa using hinv c
  | cons c0 cs ih =>
    intro c
    show (removeCellsFold id cs _).hash c = []
    apply ih
    intro c'
    simp only []
    by_cases hc : c' = c0
    · subst hc
      rw [if_pos rfl, hinv c', List.count_cons_self]
      unfold jsSpliceOut
      rw [if_pos (by simp [List.mem_replicate])]
      rw [List.replicate_succ, List.erase_cons_head]
    · rw [if_neg hc, hinv c', List.count_cons_of_ne hc]

theorem spatialHash_ext (s1 s2 : SpatialHash) (h1 : s1.size = s2.size)
    (h2 : s1.hash = s2.hash) (h3 : s1.objects = s2.objects)
    (h4 : s1.hitboxes = s2.hitboxes) : s1 = s2 := by
  cases s1
  cases s2
  simp_all

/-- Removing an object that was just added to an empty hash restores
the empty hash (and logs no error). -/
theorem remove_add_empty (size x y w h : ℚ) (id : ℕ)
    (hne : coveredCells size x y w h ≠ []) :
    ((emptySpatialHash size).add id x y w h).remove id = (emptySpatialHash size, false) := by
  unfold SpatialHash.remove
  have hobj : ((emptySpatialHash size).add id x y w h).objects id =
      some (coveredCells size x y w h) := by
    rw [add_objects_self _ _ _ _ _ _ hne]
    rfl
  rw [hobj]
  refine congrArg₂ Prod.mk ?_ rfl
  have hclear := removeCellsFold_hash_clear id (coveredCells size x y w h)
    ((emptySpatialHash size).add id x y w h)
    (fun c => by rw [add_hash]; rfl)
  apply spatialHash_ext
  · exact (removeCellsFold_size _ _ _).trans (add_size _ _ _ _ _ _)
  · funext c
    exact hclear c
  · funext o
    by_cases ho : o = id
    · simp [ho, emptySpatialHash]
    · simp only [ho, if_false]
      show (removeCellsFold id (coveredCells size x y w h)
        ((emptySpatialHash size).add id x y w h)).objects o = _
      rw [removeCellsFold_objects]
      rw [add_objects_ne _ _ _ _ _ _ _ ho]
  · funext o
    by_cases ho : o = id
    · simp [ho, emptySpatialHash]
    · simp only [ho, if_false]
      show (removeCellsFold id (coveredCells size x y w h)
        ((emptySpatialHash size).add id x y w h)).hitboxes o = _
      rw [removeCellsFold_hitboxes]
      unfold SpatialHash.add
      rw [addCellsFold_hitboxes]
      simp [ho]

theorem add_hitboxes_ne (sh : SpatialHash) (id o : ℕ) (x y w h : ℚ) (hne : o ≠ id) :
    (sh.add id x y w h).hitboxes o = sh.hitboxes o := by
  unfold SpatialHash.add
  rw [addCellsFold_hitboxes]
  simp [hne]

theorem applyAdds_hitboxes_notmem (l : List AddOp) (sh : SpatialHash) (o : ℕ)
    (h : o ∉ l.map (fun b => b.id)) :
    (applyAdds sh l).hitboxes o = sh.hitboxes o := by
  induction l generalizing sh with
  | nil => rfl
  | cons a l' ih =>
    simp only [List.map_cons, List.mem_cons, not_or] at h
    show (applyAdds (sh.add a.id a.x a.y a.w a.h) l').hitboxes o = _
    rw [ih _ h.2, add_hitboxes_ne _ _ _ _ _ _ _ h.1]

/-- When recorded ids are unique, the adds carrying a given id reduce
to the one recorded op. -/
theorem filter_id_singleton (adds : List AddOp) (a : AddOp)
    (hnodup : (adds.map (fun b => b.id)).Nodup) (ha : a ∈ adds) :
    adds.filter (fun b => b.id = a.id) = [a] := by
  obtain ⟨s, t, rfl⟩ := List.append_of_mem ha
  simp only [List.map_append, List.map_cons] at hnodup
  have hmid := List.nodup_middle.mp hnodup
  have hnotmem := (List.nodup_cons.mp hmid).1
  simp only [List.mem_append] at hnotmem
  push_neg at hnotmem
  rw [List.filter_append, List.filter_cons, if_pos (by simp)]
  have hs : s.filter (fun b => b.id = a.id) = [] := by
    rw [List.filter_eq_nil_iff]
    intro b hb
    simp only [decide_eq_true_eq]
    intro heq
    exact hnotmem.1 (heq ▸ List.mem_map_of_mem _ hb)
  have ht : t.filter (fun b => b.id = a.id) = [] := by
    rw [List.filter_eq_nil_iff]
    intro b hb
    simp only [decide_eq_true_eq]
    intro heq
    exact hnotmem.2 (heq ▸ List.mem_map_of_mem _ hb)
  rw [hs, ht]
  rfl

/-- A duplicate-free list holds each of its members exactly once. -/
theorem count_nodup_one {l : List (ℤ × ℤ)} {a : ℤ × ℤ} (hn : l.Nodup) (hm : a ∈ l) :
    l.count a = 1 := by
  induction l with
  | nil => cases hm
  | cons b bs ih =>
    rcases List.mem_cons.mp hm with rfl | hmem
    · rw [List.count_cons_self]
      have h0 : bs.count a = 0 := List.count_eq_zero.mpr (List.nodup_cons.mp hn).1
      omega
    · have hne : a ≠ b := fun he => (List.nodup_cons.mp hn).1 (he ▸ hmem)
      rw [List.count_cons_of_ne hne]
      exact ih (List.nodup_cons.mp hn).2 hmem

/-- Summing an indicator over a list counts the matching entries. -/
theorem sum_ite_length (l : List (ℤ × ℤ)) (p : ℤ × ℤ → Prop) [DecidablePred p] :
    (l.map (fun c => if p c then 1 else 0)).sum = (l.filter (fun c => p c)).length := by
  induction l with
  | nil => rfl
  | cons c cs ih =>
    by_cases hc : p c
    · simp [List.filter_cons, hc, ih]
      omega
    · simp [List.filter_cons, hc, ih]

/-- For duplicate-free lists, the two ways of counting common elements
agree. -/
theorem filter_mem_length_comm (l1 l2 : List (ℤ × ℤ)) (h1 : l1.Nodup) (h2 : l2.Nodup) :
    (l1.filter (fun x => x ∈ l2)).length = (l2.filter (fun x => x ∈ l1)).length := by
  have e1 : ∀ (la lb : List (ℤ × ℤ)), la.Nodup →
      (la.filter (fun x => x ∈ lb)).length = (la.toFinset ∩ lb.toFinset).card := by
    intro la lb hla
    rw [← List.toFinset_card_of_nodup (hla.filter _)]
    congr 1
    ext x
    simp [List.mem_toFinset, List.mem_filter, Finset.mem_inter]
  rw [e1 l1 l2 h1, e1 l2 l1 h2, Finset.inter_comm]

/-- With stable focus and nothing pending, `updateHandler` is the
identity on the scheduler state and reports the focus flag. -/
theorem updateHandler_stable (s : SchedState) (hf : s.isFocused = s.hasFocus)
    (hr : s.resizePending = false) (hs : s.swapPending = false) :
    updateHandler s = (s, s.hasFocus) := by
  cases s with
  | mk prev acc us imp foc has unc rez swp =>
    simp only at hf hr hs
    subst hf hr hs
    cases foc <;> simp [updateHandler]

/-- `updateHandler` always returns the post-sync focus flag, which is
`document.hasFocus()`. -/
theorem updateHandler_snd (s : SchedState) : (updateHandler s).2 = s.hasFocus := by
  cases s with
  | mk prev acc us imp foc has unc rez swp =>
    simp [updateHandler]
    split_ifs <;> simp_all

/-- `updateHandler` never writes `hasFocus` or the uncapped flag. -/
theorem updateHandler_pres (s : SchedState) :
    (updateHandler s).1.hasFocus = s.hasFocus ∧
    (updateHandler s).1.isFramerateUncapped = s.isFramerateUncapped := by
  cases s with
  | mk prev acc us imp foc has unc rez swp =>
    simp [updateHandler]
    split_ifs <;> simp_all

/-- `drainStep` never writes `hasFocus` or the uncapped flag. -/
theorem drainStep_pres (s : SchedState) (r : Bool) :
    (drainStep s r).1.hasFocus = s.hasFocus ∧
    (drainStep s r).1.isFramerateUncapped = s.isFramerateUncapped :=
  ⟨(updateHandler_pres s).1, (updateHandler_pres s).2⟩

/-- The rerender flag after one drained step. -/
theorem drainStep_snd (s : SchedState) (r : Bool) :
    (drainStep s r).2 = (s.hasFocus || r) := by
  show ((updateHandler s).2 || r) = (s.hasFocus || r)
  rw [updateHandler_snd]

/-- With stable focus and nothing pending, a drained step only
subtracts one from the accumulator. -/
theorem drainStep_stable (s : SchedState) (r : Bool) (hf : s.isFocused = s.hasFocus)
    (hr : s.resizePending = false) (hs : s.swapPending = false) :
    (drainStep s r).1 = { s with accumulator := s.accumulator - 1 } := by
  show { (updateHandler s).1 with
    accumulator := (updateHandler s).1.accumulator - 1 } = _
  rw [updateHandler_stable s hf hr hs]

/-- The drain loop counts at most `fuel` further steps. -/
theorem drainLoop_steps_le (f : ℕ) (s : SchedState) (r : Bool) (t : ℕ) :
    (drainLoop f s r t).2.2 ≤ t + f := by
  induction f generalizing s r t with
  | zero => simp [drainLoop]
  | succ f ih =>
    rw [drainLoop]
    by_cases h : s.accumulator ≥ 1
    · rw [if_pos h]
      exact (ih _ _ _).trans (by omega)
    · rw [if_neg h]
      exact Nat.le_add_right t (f + 1)

/-- The drain loop's step counter never decreases. -/
theorem drainLoop_steps_ge (f : ℕ) (s : SchedState) (r : Bool) (t : ℕ) :
    t ≤ (drainLoop f s r t).2.2 := by
  induction f generalizing s r t with
  | zero => simp [drainLoop]
  | succ f ih =>
    rw [drainLoop]
    by_cases h : s.accumulator ≥ 1
    · rw [if_pos h]
      exact (Nat.le_succ t).trans (ih _ _ _)
    · rw [if_neg h]

/-- The drain loop never writes `hasFocus` or the uncapped flag. -/
theorem drainLoop_pres (f : ℕ) (s : SchedState) (r : Bool) (t : ℕ) :
    (drainLoop f s r t).1.hasFocus = s.hasFocus ∧
    (drainLoop f s r t).1.isFramerateUncapped = s.isFramerateUncapped := by
  induction f generalizing s r t with
  | zero => simp [drainLoop]
  | succ f ih =>
    rw [drainLoop]
    by_cases h : s.accumulator ≥ 1
    · rw [if_pos h]
      exact ⟨((ih _ _ _).1).trans (drainStep_pres s r).1,
        ((ih _ _ _).2).trans (drainStep_pres s r).2⟩
    · rw [if_neg h]
      exact ⟨rfl, rfl⟩

/-- The rerender flag accumulated by the drain loop: the incoming flag,
OR `hasFocus` whenever at least one step was drained (every drained
step's `updateHandler` reports the same `hasFocus`). -/
theorem drainLoop_rerender (f : ℕ) (s : SchedState) (r : Bool) (t : ℕ) :
    (drainLoop f s r t).2.1 =
      (r || (decide (t < (drainLoop f s r t).2.2) && s.hasFocus)) := by
  induction f generalizing s r t with
  | zero => simp [drainLoop]
  | succ f ih =>
    rw [drainLoop]
    by_cases h : s.accumulator ≥ 1
    · rw [if_pos h]
      have hA := (drainStep_pres s r).1
      have hB := drainStep_snd s r
      set A := (drainStep s r).1 with hAdef
      set B := (drainStep s r).2 with hBdef
      rw [ih, hA, hB]
      have hT := drainLoop_steps_ge f A (s.hasFocus || r) (t + 1)
      have h2 : decide (t < (drainLoop f A (s.hasFocus || r) (t + 1)).2.2) = true := by
        simp only [decide_eq_true_eq]
        omega
      rw [h2]
      cases s.hasFocus <;> cases r <;> simp
    · rw [if_neg h]
      simp

/-- With stable focus, nothing pending, and at least `fuel` whole steps
in the accumulator, the drain loop runs exactly `fuel` steps, each
subtracting one. -/
theorem drainLoop_stable (f : ℕ) (s : SchedState) (r : Bool) (t : ℕ)
    (hf : s.isFocused = s.hasFocus) (hr : s.resizePending = false)
    (hs : s.swapPending = false) (hacc : (f : ℚ) ≤ s.accumulator) :
    drainLoop f s r t =
      ({ s with accumulator := s.accumulator - (f : ℚ) },
        ((decide (f ≠ 0) && s.hasFocus) || r), t + f) := by
  induction f generalizing s r t with
  | zero =>
    cases s
    simp [drainLoop]
  | succ f ih =>
    rw [drainLoop]
    have h1 : s.accumulator ≥ 1 := by
      have h2 : ((f : ℚ) + 1) ≤ s.accumulator := by push_cast at hacc; linarith
      linarith [Nat.cast_nonneg (α := ℚ) f]
    rw [if_pos h1, drainStep_stable s r hf hr hs, drainStep_snd s r]
    rw [ih { s with accumulator := s.accumulator - 1 } (s.hasFocus || r) (t + 1)
      hf hr hs (by push_cast at hacc ⊢; linarith)]
    refine congrArg₂ Prod.mk ?_ (congrArg₂ Prod.mk ?_ (by omega))
    · have he : s.accumulator - 1 - (f : ℚ) = s.accumulator - (((f : ℕ) + 1 : ℕ) : ℚ) := by
        push_cast
        ring
      rw [he]
    · have hd : decide ((f : ℕ) + 1 ≠ 0) = true := by simp
      rw [hd]
      cases s.hasFocus <;> cases r <;> simp

/-- `a % 1` in JS, for a non-negative dividend: the fractional part,
in `[0, 1)`. -/
theorem jsMod_one_bounds (a : ℚ) (ha : 0 ≤ a) : 0 ≤ jsMod a 1 ∧ jsMod a 1 < 1 := by
  unfold jsMod ratTrunc
  rw [div_one, if_pos ha]
  constructor
  · have := Int.floor_le a
    linarith
  · have := Int.lt_floor_add_one a
    linarith

/-- The pre-drain bookkeeping only touches the previous-frame time and
the accumulator / impact countdown. -/
theorem preDrainState_pres (s : SchedState) (ft : ℚ) :
    (preDrainState s ft).hasFocus = s.hasFocus ∧
    (preDrainState s ft).isFramerateUncapped = s.isFramerateUncapped ∧
    (preDrainState s ft).isFocused = s.isFocused ∧
    (preDrainState s ft).resizePending = s.resizePending ∧
    (preDrainState s ft).swapPending = s.swapPending := by
  simp only [preDrainState]
  split_ifs <;> exact ⟨rfl, rfl, rfl, rfl, rfl⟩

/-- With no active impact frames, an updateSpeed of 1 and a previous
callback `1/6` of a second ago (ten 60 Hz steps), the pre-drain state
has gained exactly 10 accumulator steps. -/
theorem preDrainState_ten (s : SchedState) (t0 : ℚ)
    (hprev : s.previousFrameTime = some t0) (hspeed : s.updateSpeed = 1)
    (himp : s.impactFrameCount ≤ 0) :
    preDrainState s (t0 + 10000 / 60) =
      { s with previousFrameTime := some (t0 + 10000 / 60),
               accumulator := s.accumulator + 10 } := by
  have hdelta : frameDelta s (t0 + 10000 / 60) = 10 := by
    simp only [frameDelta, hprev, hspeed]
    ring
  simp only [preDrainState]
  rw [hdelta]
  rw [if_neg (by simpa using not_lt.mpr himp)]

/-! ## Claims -/

/-- Claim C8: calling `SpatialHash.remove` on an object that was never
added (or was already removed) does not throw: it logs the condition
(the Bool component) and leaves the hash — cell map, object map and
hitbox records — exactly as it was. -/
theorem remove_untracked_noop (sh : SpatialHash) (id : ℕ)
    (h : sh.objects id = none) : sh.remove id = (sh, true) := by
  unfold SpatialHash.remove
  rw [h]

theorem remove_untracked_noop_witness :
    SpatialHash.remove (emptySpatialHash 64) 0 = (emptySpatialHash 64, true) :=
  remove_untracked_noop (emptySpatialHash 64) 0 rfl

unseal Rat.add Rat.mul Rat.sub Rat.inv Rat.ofScientific in
/-- Claim C1, counterexample: at a fractional grid position the final
AABB can still overlap the blocker.  Mover at x = 1/2 with the blocker
immediately adjacent (touching edges at 17/2): `move(+5, 0)` collides
at once and snaps the position to `Math.round(1/2) - 0.0001 = 0.9999`,
which is 0.4999 FORWARD into the blocker, so the final boxes overlap
(the displacement, velocity and contact-flag parts still hold). -/
theorem blocked_move_cex :
    (c1CexMover.position.1 + c1CexMover.aabb.maxX =
      c1CexBlocker.position.1 + c1CexBlocker.aabb.minX) ∧
    checkAabbIntersection2D (c1CexMover.move [c1CexBlocker] 5 0 1).aabb
      c1CexBlocker.aabb (c1CexMover.move [c1CexBlocker] 5 0 1).position
      c1CexBlocker.position = true := by
  decide

/-- Claim C1, amended: for a mover at an integer-aligned position with
a solid blocker immediately adjacent on its +X side (edges touching),
`move(+5, 0)` produces a net X displacement strictly less than 5 (in
fact -0.0001), zeroes `velocity.x`, sets `contactDirections.right`, and
leaves the final AABB not overlapping the blocker's (by the code's own
boundary-inclusive test); at fractional positions the round-and-push
snap can instead leave the mover overlapping the blocker. -/
theorem blocked_move (px : ℤ) (py vx vy : ℚ) (cd : ContactDirections) :
    ((c1Mover px py vx vy cd).move [c1Blocker px py] 5 0 1).position.1 -
      (c1Mover px py vx vy cd).position.1 < 5 ∧
    ((c1Mover px py vx vy cd).move [c1Blocker px py] 5 0 1).velocity.1 = 0 ∧
    ((c1Mover px py vx vy cd).move [c1Blocker px py] 5 0 1).contactDirections.right = true ∧
    checkAabbIntersection2D ((c1Mover px py vx vy cd).move [c1Blocker px py] 5 0 1).aabb
      (c1Blocker px py).aabb
      ((c1Mover px py vx vy cd).move [c1Blocker px py] 5 0 1).position
      (c1Blocker px py).position = false := by
  have hsign : jsSign (5 : ℚ) = 1 := by norm_num [jsSign]
  have hmin : min |(5 : ℚ)| 1 = 1 := by norm_num
  have hg : ¬ jsRound ((5 : ℚ) * 1000) = 0 := by norm_num [jsRound]
  have hY : ∀ (u : Thing) (f : ℕ), moveLoopY [c1Blocker px py] 1 (f + 1) u 0 = u := by
    intro u f
    rw [moveLoopY, if_pos (by norm_num [jsRound])]
  have hmove : (c1Mover px py vx vy cd).move [c1Blocker px py] 5 0 1 =
      moveLoopX [c1Blocker px py] 1 ((⌈|(5 : ℚ)| / 1⌉).natAbs + 2)
        (c1MoverCleared px py vx vy) 5 := by
    simp only [Thing.move]
    rw [show ((⌈|(0 : ℚ)| / 1⌉).natAbs + 2) = 1 + 1 from by norm_num]
    rw [hY]
    rfl
  have hfuel : ((⌈|(5 : ℚ)| / 1⌉).natAbs + 2) = 6 + 1 := by norm_num
  have hov : Thing.isOverlapping (c1MoverCleared px py vx vy)
      (c1Blocker px py) ((px : ℚ) + 1) py = true := by
    simp only [Thing.isOverlapping, checkAabbIntersection2D, c1MoverCleared, c1Blocker,
      Bool.and_eq_true, decide_eq_true_eq, Bool.not_eq_true']
    push_cast
    repeat' apply And.intro
    all_goals first
      | rfl
      | linarith
      | norm_num
  have hcol : Thing.checkCollision (c1MoverCleared px py vx vy)
      [c1Blocker px py] ((px : ℚ) + 1) py = true := by
    unfold Thing.checkCollision Thing.getAllOverlaps
    rw [List.filter_cons]
    rw [if_pos hov, List.filter_nil, List.any_cons, List.any_nil]
    show ((c1Blocker px py).isSolid || false) = true
    rfl
  have hround : jsRound ((px : ℚ)) = px := by
    unfold jsRound
    rw [Int.floor_int_add]
    norm_num
  rw [hmove, hfuel, moveLoopX]
  rw [if_neg hg]
  simp only [hsign, hmin, one_mul,
    show (c1MoverCleared px py vx vy).position = ((px : ℚ), py) from rfl,
    show (c1MoverCleared px py vx vy).contactDirections = noContacts from rfl,
    show (c1Mover px py vx vy cd).position = ((px : ℚ), py) from rfl]
  rw [if_pos hcol]
  refine ⟨?_, rfl, ?_, ?_⟩
  · show ((jsRound ((px : ℚ)) : ℚ) - 1 / 10000) - (px : ℚ) < 5
    rw [hround]
    push_cast
    linarith
  · rw [if_neg (by norm_num : ¬ ((1 : ℚ) < 0)), if_pos (by norm_num : (1 : ℚ) > 0)]
  · show checkAabbIntersection2D (c1MoverCleared px py vx vy).aabb (c1Blocker px py).aabb
      (((jsRound ((px : ℚ)) : ℚ) - 1 / 10000), py) ((c1Blocker px py).position) = false
    rw [hround, Bool.eq_false_iff]
    intro hcontra
    simp only [checkAabbIntersection2D, Bool.and_eq_true, decide_eq_true_eq,
      show (c1MoverCleared px py vx vy).aabb = (⟨-8, -8, 8, 8⟩ : Aabb) from rfl,
      show (c1Blocker px py).aabb = (⟨-8, -8, 8, 8⟩ : Aabb) from rfl,
      show (c1Blocker px py).position = ((px : ℚ) + 16, py) from rfl] at hcontra
    rcases hcontra with ⟨⟨⟨h1, h2⟩, h3⟩, h4⟩
    push_cast at h3
    linarith

unseal Rat.add Rat.mul Rat.sub Rat.inv Rat.ofScientific in
/-- Claim C5, counterexample: `move(0, 0)` is not a no-op on the contact
flags — they are cleared at the start of the call, so an entity whose
`contactDirections.right` was true comes out with different flags. -/
theorem move_zero_cex :
    (c5Thing.move [] 0 0 1).contactDirections ≠ c5Thing.contactDirections := by
  decide

/-- Claim C5, amended: `move(0, 0)` never changes position or velocity,
and always leaves all four contact flags false (they are cleared at the
start of every `move` call); hence an entity whose flags were already
all clear is unchanged in every observable field. -/
theorem move_zero_displacement (t : Thing) (near : List Thing) :
    (t.move near 0 0 1).position = t.position ∧
    (t.move near 0 0 1).velocity = t.velocity ∧
    (t.move near 0 0 1).contactDirections = noContacts := by
  have hguard : jsRound ((0 : ℚ) * 1000) = 0 := by norm_num [jsRound]
  have hX : ∀ (u : Thing) (f : ℕ), moveLoopX near 1 (f + 1) u 0 = u := by
    intro u f
    rw [moveLoopX, if_pos hguard]
  have hY : ∀ (u : Thing) (f : ℕ), moveLoopY near 1 (f + 1) u 0 = u := by
    intro u f
    rw [moveLoopY, if_pos hguard]
  have hfuel : (⌈|(0 : ℚ)| / 1⌉).natAbs + 2 = 1 + 1 := by norm_num
  simp [Thing.move, hfuel, hX, hY, noContacts]

unseal Rat.add Rat.mul Rat.sub Rat.inv Rat.ofScientific in
/-- Claim C7, counterexample: a timer set with duration 3 and ticked
once reports `getTimerFrames = 1`, not the remaining count `3 - 1`. -/
theorem getTimerFrames_cex :
    getTimerFrames (updateTimers (setTimer [] 0 3)) 0 ≠ 3 - 1 := by
  decide

/-- Claim C7, amended: for a timer set with initial duration `d` and
ticked `k` times with `0 ≤ k < d`, the timer is still active and
`getTimerFrames` returns the number of frames ELAPSED, `k`
(`start - time`); the remaining count is `d - getTimerFrames`. -/
theorem getTimerFrames_elapsed (d k : ℕ) (h : k < d) :
    isTimerActive ((updateTimers)^[k] (setTimer [] 0 (d : ℚ))) 0 = true ∧
    getTimerFrames ((updateTimers)^[k] (setTimer [] 0 (d : ℚ))) 0 = (k : ℚ) := by
  rw [timersAfterTicks d k h]
  refine ⟨by simp [isTimerActive, lookupTimer], ?_⟩
  simp [getTimerFrames, lookupTimer]

theorem getTimerFrames_elapsed_witness :
    isTimerActive ((updateTimers)^[1] (setTimer [] 0 ((3 : ℕ) : ℚ))) 0 = true ∧
    getTimerFrames ((updateTimers)^[1] (setTimer [] 0 ((3 : ℕ) : ℚ))) 0 = ((1 : ℕ) : ℚ) :=
  getTimerFrames_elapsed 3 1 (by decide)

unseal Rat.add Rat.mul Rat.sub Rat.inv Rat.ofScientific in
/-- Claim C3, counterexample: a callback worth 10 steps that arrives as
the window regains focus (update speed 1, no impact frames) leaves the
accumulator NEGATIVE: `gainFocus` rebiases the accumulator to 0.99
inside the first drained step, the loop then subtracts 1, and
`-0.01 % 1 = -0.01`. -/
theorem fixed_step_catchup_cex :
    (frame refocusSched (10000 / 60)).state.accumulator < 0 := by
  decide

/-- Claim C3, amended: the drain cap of 5 holds for every callback; and
a single callback worth 10 simulation steps (update speed 1, no impact
frames) drains exactly 5 steps and leaves the accumulator in `[0, 1)`,
PROVIDED the window's focus state is unchanged during the callback and
no canvas-resize or scene-swap accumulator rebias is pending (each of
those resets the accumulator to 0.99 mid-drain, which can end the
callback at -0.01). -/
theorem fixed_step_catchup :
    (∀ (s : SchedState) (ft : ℚ), (frame s ft).steps ≤ 5) ∧
    (∀ (s : SchedState) (t0 : ℚ), s.previousFrameTime = some t0 → 0 ≤ s.accumulator →
      s.updateSpeed = 1 → s.impactFrameCount ≤ 0 → s.isFocused = s.hasFocus →
      s.resizePending = false → s.swapPending = false →
      (frame s (t0 + 10000 / 60)).steps = 5 ∧
      0 ≤ (frame s (t0 + 10000 / 60)).state.accumulator ∧
      (frame s (t0 + 10000 / 60)).state.accumulator < 1) := by
  constructor
  · intro s ft
    exact (drainLoop_steps_le 5 (preDrainState s ft) false 0).trans (by omega)
  · intro s t0 hprev hacc hspeed himp hf hr hs
    have hpre := preDrainState_ten s t0 hprev hspeed himp
    have hdrain := drainLoop_stable 5
      ({ s with previousFrameTime := some (t0 + 10000 / 60),
                accumulator := s.accumulator + 10 }) false 0
      (by exact hf) (by exact hr) (by exact hs) (by push_cast; linarith)
    have h1 : (frame s (t0 + 10000 / 60)).steps = 5 := by
      show (drainLoop 5 (preDrainState s (t0 + 10000 / 60)) false 0).2.2 = 5
      rw [hpre, hdrain]
    have h2 : (frame s (t0 + 10000 / 60)).state.accumulator =
        jsMod (s.accumulator + 10 - ((5 : ℕ) : ℚ)) 1 := by
      show jsMod (drainLoop 5 (preDrainState s (t0 + 10000 / 60)) false 0).1.accumulator 1 = _
      rw [hpre, hdrain]
    have hb := jsMod_one_bounds (s.accumulator + 10 - ((5 : ℕ) : ℚ)) (by push_cast; linarith)
    refine ⟨h1, ?_, ?_⟩
    · rw [h2]; exact hb.1
    · rw [h2]; exact hb.2

theorem fixed_step_catchup_witness :
    (frame steadySched (0 + 10000 / 60)).steps = 5 ∧
    0 ≤ (frame steadySched (0 + 10000 / 60)).state.accumulator ∧
    (frame steadySched (0 + 10000 / 60)).state.accumulator < 1 :=
  fixed_step_catchup.2 steadySched 0 rfl (by norm_num [steadySched]) rfl
    (by norm_num [steadySched]) rfl rfl rfl

unseal Rat.add Rat.mul Rat.sub Rat.inv Rat.ofScientific in
/-- Claim C6, counterexample: with the window unfocused (capped
framerate), a callback worth 10 steps drains 5 simulation steps yet
renders zero times — "renders exactly once if at least one simulation
step was drained" fails without focus. -/
theorem render_gate_cex :
    1 ≤ (frame unfocusedSched (10000 / 60)).steps ∧
    (frame unfocusedSched (10000 / 60)).draws = 0 := by
  decide

/-- Claim C6, amended: on every callback the scheduler draws at most
once; it draws exactly once iff the window has focus AND (at least one
simulation step was drained or uncapped-framerate mode is set); the
per-frame mouse raw-delta is reset exactly when the render gate is
taken — a step was drained with focus, or uncapped mode is set (even
without focus, in which case the reset happens with no draw). -/
theorem render_gate (s : SchedState) (ft : ℚ) :
    (frame s ft).draws ≤ 1 ∧
    ((frame s ft).draws = 1 ↔
      (s.hasFocus = true ∧ (1 ≤ (frame s ft).steps ∨ s.isFramerateUncapped = true))) ∧
    ((frame s ft).rawDeltaReset = true ↔
      ((1 ≤ (frame s ft).steps ∧ s.hasFocus = true) ∨ s.isFramerateUncapped = true)) := by
  have hP := preDrainState_pres s ft
  have hD := drainLoop_pres 5 (preDrainState s ft) false 0
  have hR := drainLoop_rerender 5 (preDrainState s ft) false 0
  have hsteps : (frame s ft).steps = (drainLoop 5 (preDrainState s ft) false 0).2.2 := rfl
  have hdraws : (frame s ft).draws =
      (if ((drainLoop 5 (preDrainState s ft) false 0).2.1 ||
            (drainLoop 5 (preDrainState s ft) false 0).1.isFramerateUncapped) &&
          (drainLoop 5 (preDrainState s ft) false 0).1.hasFocus then 1 else 0) := rfl
  have hraw : (frame s ft).rawDeltaReset =
      ((drainLoop 5 (preDrainState s ft) false 0).2.1 ||
        (drainLoop 5 (preDrainState s ft) false 0).1.isFramerateUncapped) := rfl
  rw [hD.1, hP.1] at hdraws
  rw [hD.2, hP.2.1] at hdraws hraw
  rw [hR, hP.1] at hdraws hraw
  rw [hdraws, hraw, hsteps]
  generalize (drainLoop 5 (preDrainState s ft) false 0).2.2 = T
  cases hH : s.hasFocus <;> cases hU : s.isFramerateUncapped <;> by_cases ht : 0 < T <;>
    simp [ht] <;> omega

unseal Rat.add Rat.mul Rat.sub Rat.inv Rat.ofScientific in
/-- Claim C2, counterexample: the empty-on-disjoint half of the claim
fails — `query` is broad-phase.  A rectangle added at (0,0) size 10×10
and a query at (40,40) size 10×10 are geometrically disjoint (each axis
separated: 0 + 10 < 40), yet both cover only grid cell (0,0) of the
64-unit grid, so the query returns the entity. -/
theorem spatial_hash_coverage_cex :
    ((0 : ℚ) + 10 < 40) ∧
    (applyAdds (emptySpatialHash 64) [⟨0, 0, 0, 10, 10⟩]).query 40 40 10 10 = [0] := by
  decide

/-- Claim C2, amended: (1) every entity added with rectangle R is
returned by `query` over any rectangle geometrically intersecting R
(closed rectangles, non-negative extents); (2) a query over a rectangle
whose covering CELLS are disjoint from the covering cells of every
added rectangle returns the empty list — mere geometric disjointness is
not enough, since `query` is a broad-phase, cell-granular result. -/
theorem spatial_hash_coverage :
    (∀ (size : ℚ) (adds : List AddOp) (a : AddOp) (qx qy qw qh : ℚ),
      0 < size → a ∈ adds → 0 ≤ a.w → 0 ≤ a.h → 0 ≤ qw → 0 ≤ qh →
      qx ≤ a.x + a.w → a.x ≤ qx + qw → qy ≤ a.y + a.h → a.y ≤ qy + qh →
      a.id ∈ (applyAdds (emptySpatialHash size) adds).query qx qy qw qh) ∧
    (∀ (size : ℚ) (adds : List AddOp) (qx qy qw qh : ℚ),
      (∀ b ∈ adds, ∀ c ∈ coveredCells size qx qy qw qh,
        c ∉ coveredCells size b.x b.y b.w b.h) →
      (applyAdds (emptySpatialHash size) adds).query qx qy qw qh = []) := by
  constructor
  · intro size adds a qx qy qw qh hsize ha hw hh hqw hqh h1 h2 h3 h4
    have hsz : (applyAdds (emptySpatialHash size) adds).size = size := applyAdds_size _ _
    have hcA : (⌊max a.x qx / size⌋, ⌊max a.y qy / size⌋) ∈
        coveredCells size a.x a.y a.w a.h :=
      coveredCells_of_point hsize (le_max_left _ _)
        (max_le (by linarith) (by linarith)) (le_max_left _ _)
        (max_le (by linarith) (by linarith))
    have hcQ : (⌊max a.x qx / size⌋, ⌊max a.y qy / size⌋) ∈
        coveredCells size qx qy qw qh :=
      coveredCells_of_point hsize (le_max_right _ _)
        (max_le (by linarith) (by linarith)) (le_max_right _ _)
        (max_le (by linarith) (by linarith))
    rw [mem_query_iff, hsz]
    refine ⟨(⌊max a.x qx / size⌋, ⌊max a.y qy / size⌋), hcQ, ?_⟩
    rw [← List.count_pos_iff]
    rw [applyAdds_hash_count]
    have hmemf : a ∈ adds.filter (fun b => b.id = a.id) :=
      List.mem_filter.mpr ⟨ha, by simp⟩
    have hval : 1 ≤ (coveredCells (emptySpatialHash size).size a.x a.y a.w a.h).count
        (⌊max a.x qx / size⌋, ⌊max a.y qy / size⌋) := by
      show 1 ≤ (coveredCells size a.x a.y a.w a.h).count _
      exact List.count_pos_iff.mpr hcA
    have hsum := List.single_le_sum
      (l := (adds.filter (fun b => b.id = a.id)).map
        (fun b => (coveredCells (emptySpatialHash size).size b.x b.y b.w b.h).count
          (⌊max a.x qx / size⌋, ⌊max a.y qy / size⌋)))
      (fun x _ => Nat.zero_le x)
      _ (List.mem_map_of_mem _ hmemf)
    have hz : ((emptySpatialHash size).hash
        (⌊max a.x qx / size⌋, ⌊max a.y qy / size⌋)).count a.id = 0 := rfl
    omega
  · intro size adds qx qy qw qh hdisj
    have hsz : (applyAdds (emptySpatialHash size) adds).size = size := applyAdds_size _ _
    rw [List.eq_nil_iff_forall_not_mem]
    intro id hid
    rw [mem_query_iff, hsz] at hid
    obtain ⟨c, hcQ, hchash⟩ := hid
    have hcount : ((applyAdds (emptySpatialHash size) adds).hash c).count id = 0 := by
      rw [applyAdds_hash_count]
      have hz : ((emptySpatialHash size).hash c).count id = 0 := rfl
      have hs : ((adds.filter (fun b => b.id = id)).map
          (fun b => (coveredCells (emptySpatialHash size).size b.x b.y b.w b.h).count c)).sum
          = 0 := by
        apply List.sum_eq_zero
        intro x hx
        obtain ⟨b, hb, rfl⟩ := List.mem_map.mp hx
        have hbmem : b ∈ adds := (List.mem_filter.mp hb).1
        have : c ∉ coveredCells size b.x b.y b.w b.h := hdisj b hbmem c hcQ
        exact List.count_eq_zero_of_not_mem this
      omega
    exact absurd hchash (List.count_eq_zero.mp hcount)

unseal Rat.add Rat.mul Rat.sub Rat.inv Rat.ofScientific in
theorem spatial_hash_coverage_witness :
    0 ∈ (applyAdds (emptySpatialHash 64) [⟨0, 0, 0, 10, 10⟩]).query 5 5 10 10 ∧
    (applyAdds (emptySpatialHash 64) [⟨7, 100, 100, 10, 10⟩]).query 300 300 10 10 = [] :=
  ⟨spatial_hash_coverage.1 64 [⟨0, 0, 0, 10, 10⟩] ⟨0, 0, 0, 10, 10⟩ 5 5 10 10
      (by norm_num) (by decide) (by norm_num) (by norm_num) (by norm_num) (by norm_num)
      (by norm_num) (by norm_num) (by norm_num) (by norm_num),
    spatial_hash_coverage.2 64 [⟨7, 100, 100, 10, 10⟩] 300 300 10 10 (by decide)⟩

unseal Rat.add Rat.mul Rat.sub Rat.inv Rat.ofScientific in
/-- Claim C9: AABB intersection is boundary-inclusive — two boxes that
merely touch along an edge or at a corner (zero overlap area) count as
overlapping, and a touching solid therefore registers as a collision.
The other entity must be live, overlap-enabled and distinct (the code
checks these on the candidate; the probing entity's own flags are not
consulted, so the claim's symmetric conditions are a superset). -/
theorem touching_overlap (a b : Thing)
    (ha1 : a.isDead = false) (ha2 : a.isOverlapEnabled = true)
    (hb1 : b.isDead = false) (hb2 : b.isOverlapEnabled = true)
    (hid : b.id ≠ a.id)
    (h1 : a.aabb.minX + a.position.1 ≤ b.aabb.maxX + b.position.1)
    (h2 : a.aabb.minY + a.position.2 ≤ b.aabb.maxY + b.position.2)
    (h3 : a.aabb.maxX + a.position.1 ≥ b.aabb.minX + b.position.1)
    (h4 : a.aabb.maxY + a.position.2 ≥ b.aabb.minY + b.position.2)
    (hzero :
      min (a.aabb.maxX + a.position.1) (b.aabb.maxX + b.position.1) =
        max (a.aabb.minX + a.position.1) (b.aabb.minX + b.position.1) ∨
      min (a.aabb.maxY + a.position.2) (b.aabb.maxY + b.position.2) =
        max (a.aabb.minY + a.position.2) (b.aabb.minY + b.position.2)) :
    a.isOverlapping b a.position.1 a.position.2 = true ∧
    (b.isSolid = true → a.checkCollision [b] a.position.1 a.position.2 = true) := by
  have hov : a.isOverlapping b a.position.1 a.position.2 = true := by
    simp only [Thing.isOverlapping, checkAabbIntersection2D, Bool.and_eq_true,
      decide_eq_true_eq, Bool.not_eq_true']
    tauto
  refine ⟨hov, fun hsol => ?_⟩
  simp [Thing.checkCollision, Thing.getAllOverlaps, List.filter, hov, hsol]

unseal Rat.add Rat.mul Rat.sub Rat.inv Rat.ofScientific in
theorem touching_overlap_witness :
    (c1Mover 0 0 0 0 noContacts).isOverlapping (c1Blocker 0 0)
      (c1Mover 0 0 0 0 noContacts).position.1 (c1Mover 0 0 0 0 noContacts).position.2 = true ∧
    ((c1Blocker 0 0).isSolid = true →
      (c1Mover 0 0 0 0 noContacts).checkCollision [c1Blocker 0 0]
        (c1Mover 0 0 0 0 noContacts).position.1 (c1Mover 0 0 0 0 noContacts).position.2 = true) :=
  touching_overlap (c1Mover 0 0 0 0 noContacts) (c1Blocker 0 0)
    (by decide) (by decide) (by decide) (by decide) (by decide)
    (by decide) (by decide) (by decide) (by decide) (Or.inl (by decide))

/-- Claim C10: `query` can return the same entity more than once.  For
a hash built from adds with pairwise-distinct ids, an entity recorded
with rectangle R (its stored hitbox) appears in a query's result
exactly once per grid cell that R's coverage shares with the queried
rectangle's coverage. -/
theorem query_duplicates (size : ℚ) (adds : List AddOp) (a : AddOp) (qx qy qw qh : ℚ)
    (hnodup : (adds.map (fun b => b.id)).Nodup) (ha : a ∈ adds) :
    (applyAdds (emptySpatialHash size) adds).hitboxes a.id = some (a.x, a.y, a.w, a.h) ∧
    ((applyAdds (emptySpatialHash size) adds).query qx qy qw qh).count a.id =
      ((coveredCells size a.x a.y a.w a.h).filter
        (fun c => c ∈ coveredCells size qx qy qw qh)).length := by
  constructor
  · obtain ⟨s, t, rfl⟩ := List.append_of_mem ha
    simp only [List.map_append, List.map_cons] at hnodup
    have hmid := List.nodup_middle.mp hnodup
    have hnotmem := (List.nodup_cons.mp hmid).1
    simp only [List.mem_append] at hnotmem
    push_neg at hnotmem
    have hsplit : applyAdds (emptySpatialHash size) (s ++ a :: t) =
        applyAdds ((applyAdds (emptySpatialHash size) s).add a.id a.x a.y a.w a.h) t := by
      rw [applyAdds_append]
      rfl
    rw [hsplit, applyAdds_hitboxes_notmem t _ _ hnotmem.2, add_hitboxes_self]
  · rw [query_count, applyAdds_size]
    have hcell : ∀ c, ((applyAdds (emptySpatialHash size) adds).hash c).count a.id =
        if c ∈ coveredCells size a.x a.y a.w a.h then 1 else 0 := by
      intro c
      rw [applyAdds_hash_count, filter_id_singleton adds a hnodup ha]
      have hz : ((emptySpatialHash size).hash c).count a.id = 0 := rfl
      have hone : (([a]).map (fun b =>
          (coveredCells (emptySpatialHash size).size b.x b.y b.w b.h).count c)).sum =
          (coveredCells size a.x a.y a.w a.h).count c := by
        show (coveredCells size a.x a.y a.w a.h).count c + 0 = _
        omega
      rw [hz, hone]
      by_cases hc : c ∈ coveredCells size a.x a.y a.w a.h
      · have h1 : (coveredCells size a.x a.y a.w a.h).count c = 1 :=
          count_nodup_one (coveredCells_nodup _ _ _ _ _) hc
        rw [if_pos hc]
        omega
      · have h1 : (coveredCells size a.x a.y a.w a.h).count c = 0 :=
          List.count_eq_zero.mpr hc
        rw [if_neg hc]
        omega
    rw [List.map_congr_left (fun c _ => hcell c)]
    rw [sum_ite_length]
    exact filter_mem_length_comm _ _ (coveredCells_nodup _ _ _ _ _)
      (coveredCells_nodup _ _ _ _ _)

unseal Rat.add Rat.mul Rat.sub Rat.inv Rat.ofScientific in
/-- Claim C4, counterexample: removal is NOT one step late.  A live
thing whose own update sets `isDead` during step N is removed from the
entity list, the spatial hash and its depth layer during that same
step N: here the scene holds one thing before the update and nothing at
all after a single `Scene.update` call. -/
theorem removal_timing_cex :
    c4CexScene.things.length = 1 ∧
    (Scene.update killSelf c4CexScene).things = [] ∧
    (Scene.update killSelf c4CexScene).spatialHash.objects 3 = none ∧
    (Scene.update killSelf c4CexScene).spatialHash.hitboxes 3 = none ∧
    (Scene.update killSelf c4CexScene).layers 2 = [] := by
  decide

/-- Claim C4, amended: an entity whose `isDead` flag is set before or
during the examination of its slot in step N's update pass is removed
from the Scene's entity list, the SpatialHash (cell arrays, cell-list
record and hitbox record) and its depth layer during step N itself;
only an entity flagged dead after its slot was already passed survives
to be removed in step N+1.  (Overlap queries exclude dead entities
immediately regardless, via `isOverlapping`'s liveness filter.)  Proved
for the self-death case on a freshly registered entity with a
well-formed bounding box. -/
theorem removal_timing (n : ℕ) (pos vel : ℚ × ℚ) (a : Aabb) (oe sol : Bool) (d : ℚ)
    (hx : a.minX ≤ a.maxX) (hy : a.minY ≤ a.maxY) :
    (Scene.update killSelf (emptyScene.addThing (c4Thing n pos vel a oe sol d))).things = [] ∧
    (Scene.update killSelf
      (emptyScene.addThing (c4Thing n pos vel a oe sol d))).spatialHash.objects n = none ∧
    (Scene.update killSelf
      (emptyScene.addThing (c4Thing n pos vel a oe sol d))).spatialHash.hitboxes n = none ∧
    (∀ c : ℤ × ℤ, (Scene.update killSelf
      (emptyScene.addThing (c4Thing n pos vel a oe sol d))).spatialHash.hash c = []) ∧
    (∀ k : ℤ, n ∉ (Scene.update killSelf
      (emptyScene.addThing (c4Thing n pos vel a oe sol d))).layers k) := by
  have hne : coveredCells 64 (a.minX + pos.1) (a.minY + pos.2)
      (a.maxX - a.minX) (a.maxY - a.minY) ≠ [] :=
    coveredCells_ne_nil (by norm_num) (by linarith) (by linarith)
  have hrm := remove_add_empty 64 (a.minX + pos.1) (a.minY + pos.2)
    (a.maxX - a.minX) (a.maxY - a.minY) n hne
  have hsh : (Scene.update killSelf
      (emptyScene.addThing (c4Thing n pos vel a oe sol d))).spatialHash =
      emptySpatialHash 64 := by
    show (((emptySpatialHash 64).add n (a.minX + pos.1) (a.minY + pos.2)
      (a.maxX - a.minX) (a.maxY - a.minY)).remove n).1 = _
    rw [hrm]
  refine ⟨rfl, ?_, ?_, ?_, ?_⟩
  · rw [hsh]
    rfl
  · rw [hsh]
    rfl
  · intro c
    rw [hsh]
    rfl
  · intro k
    have hkey : (((emptyScene.addThing (c4Thing n pos vel a oe sol d))).depthMemory n).getD 0
        = jsRound d := by
      show ((if n = n then some (jsRound d) else none : Option ℤ)).getD 0 = _
      rw [if_pos rfl]
      rfl
    have hlay : (Scene.update killSelf
        (emptyScene.addThing (c4Thing n pos vel a oe sol d))).layers k =
        if k = (((emptyScene.addThing (c4Thing n pos vel a oe sol d))).depthMemory n).getD 0
        then jsSpliceOut
          ((emptyScene.addThing (c4Thing n pos vel a oe sol d)).layers
            ((((emptyScene.addThing (c4Thing n pos vel a oe sol d))).depthMemory n).getD 0)) n
        else (emptyScene.addThing (c4Thing n pos vel a oe sol d)).layers k := rfl
    rw [hlay, hkey]
    by_cases hk : k = jsRound d
    · rw [if_pos hk]
      have hbucket : (emptyScene.addThing (c4Thing n pos vel a oe sol d)).layers (jsRound d)
          = [n] := by
        show (if jsRound d = jsRound d then [] ++ [n] else []) = [n]
        rw [if_pos rfl]
        rfl
      rw [hbucket]
      unfold jsSpliceOut
      rw [if_pos (by simp), List.erase_cons_head]
      simp
    · rw [if_neg hk]
      have hbucket : (emptyScene.addThing (c4Thing n pos vel a oe sol d)).layers k = [] := by
        show (if k = jsRound d then [] ++ [n] else []) = []
        rw [if_neg hk]
      rw [hbucket]
      simp

theorem removal_timing_witness :
    (Scene.update killSelf
      (emptyScene.addThing (c4Thing 3 (5, 7) (0, 0) ⟨-8, -8, 8, 8⟩ true false 2))).things = [] ∧
    (Scene.update killSelf
      (emptyScene.addThing
        (c4Thing 3 (5, 7) (0, 0) ⟨-8, -8, 8, 8⟩ true false 2))).spatialHash.objects 3 = none ∧
    (Scene.update killSelf
      (emptyScene.addThing
        (c4Thing 3 (5, 7) (0, 0) ⟨-8, -8, 8, 8⟩ true false 2))).spatialHash.hitboxes 3 = none ∧
    (∀ c : ℤ × ℤ, (Scene.update killSelf
      (emptyScene.addThing
        (c4Thing 3 (5, 7) (0, 0) ⟨-8, -8, 8, 8⟩ true false 2))).spatialHash.hash c = []) ∧
    (∀ k : ℤ, 3 ∉ (Scene.update killSelf
      (emptyScene.addThing (c4Thing 3 (5, 7) (0, 0) ⟨-8, -8, 8, 8⟩ true false 2))).layers k) :=
  removal_timing 3 (5, 7) (0, 0) ⟨-8, -8, 8, 8⟩ true false 2 (by norm_num) (by norm_num)

unseal Rat.add Rat.mul Rat.sub Rat.inv Rat.ofScientific in
theorem query_duplicates_witness :
    (applyAdds (emptySpatialHash 64) [⟨7, 0, 0, 100, 10⟩]).hitboxes 7 =
      some (0, 0, 100, 10) ∧
    ((applyAdds (emptySpatialHash 64) [⟨7, 0, 0, 100, 10⟩]).query 0 0 200 10).count 7 =
      ((coveredCells 64 0 0 100 10).filter
        (fun c => c ∈ coveredCells 64 0 0 200 10)).length :=
  query_duplicates 64 [⟨7, 0, 0, 100, 10⟩] ⟨7, 0, 0, 100, 10⟩ 0 0 200 10
    (by decide) (by decide)

end Jazz
